import Mathlib

/-!
Verification of the intent-resolution pipeline, self-echo suppression and
confirmation/undo state machine of the standalone voice-assistant module
(src/standalone/ai-assistant-standalone.js).

The JavaScript code is embedded shallowly:

* strings are Lean `String`s, manipulated through structurally recursive
  helpers over `List Char` (JavaScript `includes`, `toLowerCase`, `trim`,
  `split`) so that closed instances reduce;
* confidences are rationals (`ℚ`); the constants involved are decimal
  literals and no claim depends on binary floating-point rounding;
* the two remote LLM calls and all DOM interactions are I/O: their outcomes
  are inputs (oracle values) to the embedded functions, at exactly the
  granularity the surrounding code observes (a parsed result object, or a
  thrown error);
* the mutable fields of the `AIAssistantStandalone` class are threaded as
  explicit state records, and the externally visible side effects of a run
  are collected in an event trace.
-/

namespace VoiceAssistant

/-! ## String primitives

Structural re-implementations of the JavaScript string operations used by
the module, over the underlying character lists. -/

/-- Prefix test on character lists (conditions are propositional equalities
so that closed instances reduce). -/
def isPre : List Char → List Char → Bool
  | [], _ => true
  | _ :: _, [] => false
  | a :: as, b :: bs => if a = b then isPre as bs else false

/-- Contiguous-sublist test on character lists. -/
def isSub (pat : List Char) : List Char → Bool
  | [] => isPre pat []
  | c :: rest => isPre pat (c :: rest) || isSub pat rest

/-- JavaScript `s.includes(pat)`. -/
def strContains (s pat : String) : Bool :=
  isSub pat.data s.data

/-- JavaScript `s.toLowerCase()` (ASCII case mapping; Korean characters are
unaffected). -/
def lowerStr (s : String) : String :=
  ⟨s.data.map Char.toLower⟩

/-- Whitespace test backing `trim` and `split(/\s+/)`. -/
def isWs (c : Char) : Bool :=
  if c = ' ' then true
  else if c = '\t' then true
  else if c = '\n' then true
  else if c = '\r' then true
  else false

/-- JavaScript `s.trim()`. -/
def trimStr (s : String) : String :=
  ⟨((s.data.dropWhile isWs).reverse.dropWhile isWs).reverse⟩

/-- Helper for `splitWs`: accumulates the current token (reversed). -/
def splitWsGo (cur : List Char) : List Char → List String
  | [] => [⟨cur.reverse⟩]
  | c :: rest =>
      if isWs c then ⟨cur.reverse⟩ :: splitWsGo [] rest
      else splitWsGo (c :: cur) rest

/-- JavaScript `s.split(/\s+/)`.  At consecutive separators or a leading
separator this produces empty tokens where the regex split would not, but
the source only ever asks whether a nonempty keyword equals one of the
tokens, so the difference is inert at every call site. -/
def splitWs (s : String) : List String :=
  splitWsGo [] s.data

/-- Normalization used throughout the source:
`transcript.toLowerCase().trim()`. -/
def normalizeTranscript (t : String) : String :=
  trimStr (lowerStr t)

/-! ## Intent results -/

/-- Intent result record as produced by the classifier stages.  Fields the
JavaScript objects leave `undefined` on some paths are `Option`s.  The JS
objects carry `matchedKeyword` (second pattern matcher) or `matched` (first
pattern matcher); both are modelled by the single field `matched`.  The
`reasoning` field of the context classifier is diagnostics and is
dropped. -/
structure IntentResult where
  intent : String
  confidence : ℚ
  target : Option String := none
  source : String
  originalText : Option String := none
  matched : Option String := none
  quantity : Option Nat := none
deriving DecidableEq

/-- Fixed intent vocabulary of the spec's Intent Result data model. -/
def intentVocabulary : List String :=
  ["click", "search", "navigate", "scroll", "input", "read", "login",
   "confirm", "cancel", "help", "select", "order", "clear", "unknown"]

/-! ## Pattern matcher (effective second definition)

The class body defines `matchBasicPatterns` twice.  In JavaScript the
second definition (lines 1134-1200) overwrites the first on the class
prototype, so every `this.matchBasicPatterns(...)` call dispatches to the
definition embedded here. -/

/-- One rule of the second `matchBasicPatterns` definition. -/
structure PatternRule where
  keywords : List String
  intent : String
  confidence : ℚ

/-- Ordered rule table `enhancedPatterns` (lines 1135-1166). -/
def enhancedPatterns : List PatternRule :=
  [⟨["로그인", "들어가", "접속", "로그온", "들어가기", "들어가줘", "입장"], "login", 0.9⟩,
   ⟨["검색", "찾아", "찾기", "찾고", "찾아줘", "찾아봐", "알아봐"], "search", 0.9⟩,
   ⟨["확인", "클릭", "선택", "눌러", "이걸로", "좋아", "누르기", "선택해", "이것"], "confirm", 0.85⟩,
   ⟨["아니", "취소", "되돌려", "그만", "잘못", "아니야", "싫어", "멈춰"], "cancel", 0.95⟩,
   ⟨["다음", "이전", "위로", "아래로", "넘어", "앞으로", "뒤로", "올려", "내려"], "navigate", 0.85⟩,
   ⟨["도움", "도와줘", "뭐해", "뭐하지", "어떻게"], "help", 0.8⟩]

/-- Per-rule matching of the second `matchBasicPatterns`: first an exact
whitespace-token match at the rule's declared confidence, then a substring
match at 0.8 times that confidence. -/
def matchRule (transcript : String) (p : PatternRule) : Option IntentResult :=
  match p.keywords.find? (fun kw => decide (kw ∈ splitWs transcript)) with
  | some kw =>
      some { intent := p.intent, confidence := p.confidence,
             source := "exact_pattern", originalText := some transcript,
             matched := some kw }
  | none =>
      match p.keywords.find? (fun kw => strContains transcript kw) with
      | some kw =>
          some { intent := p.intent, confidence := p.confidence * 0.8,
                 source := "partial_pattern", originalText := some transcript,
                 matched := some kw }
      | none => none

/-- Second (effective) `matchBasicPatterns` (lines 1134-1200): the first
rule with an exact or partial keyword match wins; otherwise the unknown
result at confidence 0.1.  The input is used unnormalized, exactly as at
the line 720 call site. -/
def matchBasicPatterns (transcript : String) : IntentResult :=
  match enhancedPatterns.findSome? (matchRule transcript) with
  | some r => r
  | none => { intent := "unknown", confidence := 0.1, source := "none" }

/-! ## Pattern matcher (shadowed first definition)

First `matchBasicPatterns` definition (lines 726-843), with the Korean
coffee/dessert/action/cultural abbreviation tables.  It is dead code in the
source: the second definition above replaces it on the prototype.  It is
embedded to compare against the behaviour the spec describes. -/

/-- One entry of the merged `allPatterns` table of the first definition. -/
structure V1Entry where
  pattern : String
  target : Option String := none
  intent : Option String := none
  confidence : ℚ
  cultural : Bool := false

/-- Merged `allPatterns` table: coffee, dessert, action and cultural
patterns in object-spread insertion order (lines 731-783). -/
def allPatternsV1 : List V1Entry :=
  [{ pattern := "아아", target := some "아메리카노", confidence := 0.95 },
   { pattern := "아메", target := some "아메리카노", confidence := 0.9 },
   { pattern := "아메리카노", target := some "아메리카노", confidence := 0.98 },
   { pattern := "라떼", target := some "카페라떼", confidence := 0.95 },
   { pattern := "카페라떼", target := some "카페라떼", confidence := 0.98 },
   { pattern := "카푸", target := some "카푸치노", confidence := 0.8 },
   { pattern := "카푸치노", target := some "카푸치노", confidence := 0.95 },
   { pattern := "바닐라", target := some "바닐라라떼", confidence := 0.9 },
   { pattern := "아이스티", target := some "아이스티", confidence := 0.9 },
   { pattern := "티", target := some "아이스티", confidence := 0.7 },
   { pattern := "초콜릿", target := some "핫초콜릿", confidence := 0.8 },
   { pattern := "핫초콜릿", target := some "핫초콜릿", confidence := 0.95 },
   { pattern := "코코아", target := some "핫초콜릿", confidence := 0.8 },
   { pattern := "크로와상", target := some "크로와상", confidence := 0.9 },
   { pattern := "빵", target := some "크로와상", confidence := 0.7 },
   { pattern := "케이크", target := some "치즈케이크", confidence := 0.8 },
   { pattern := "치즈케이크", target := some "치즈케이크", confidence := 0.95 },
   { pattern := "마카롱", target := some "마카롱", confidence := 0.9 },
   { pattern := "쿠키", target := some "마카롱", confidence := 0.6 },
   { pattern := "주문", intent := some "order", confidence := 0.9 },
   { pattern := "결제", intent := some "order", confidence := 0.8 },
   { pattern := "취소", intent := some "cancel", confidence := 0.9 },
   { pattern := "초기화", intent := some "clear", confidence := 0.8 },
   { pattern := "지워", intent := some "clear", confidence := 0.7 },
   { pattern := "도움", intent := some "help", confidence := 0.8 },
   { pattern := "헬프", intent := some "help", confidence := 0.8 },
   { pattern := "맥날", target := some "맥도날드", confidence := 0.95, cultural := true },
   { pattern := "맥도날드", target := some "맥도날드", confidence := 0.9, cultural := true },
   { pattern := "스벅", target := some "스타벅스", confidence := 0.95, cultural := true },
   { pattern := "스타벅스", target := some "스타벅스", confidence := 0.9, cultural := true },
   { pattern := "카톡", target := some "카카오톡", confidence := 0.95, cultural := true }]

/-- Numeric value of a digit run (JavaScript `parseInt` on a `\d+`
capture). -/
def digitsVal (ds : List Char) : Nat :=
  ds.foldl (fun a c => a * 10 + (c.toNat - '0'.toNat)) 0

/-- Outcome of one alternative of the quantity regex
`(\d+)개|(\d+)잔|하나|한개|두개|세개`. -/
inductive QTok where
  | num (n : Nat)
  | hana
  | hangae
  | dugae
  | segae
deriving DecidableEq

/-- Attempts the quantity regex's alternatives at one position, in
alternation order.  A greedy digit run needs no backtracking: if the
character following the full run is not the required suffix it is a digit
or some other non-suffix character, and shorter runs end in a digit. -/
def qMatchAt (cs : List Char) : Option QTok :=
  let ds := cs.takeWhile Char.isDigit
  if ds ≠ [] ∧ (cs.drop ds.length).take 1 = ['개'] then some (.num (digitsVal ds))
  else if ds ≠ [] ∧ (cs.drop ds.length).take 1 = ['잔'] then some (.num (digitsVal ds))
  else if cs.take 2 = ['하', '나'] then some .hana
  else if cs.take 2 = ['한', '개'] then some .hangae
  else if cs.take 2 = ['두', '개'] then some .dugae
  else if cs.take 2 = ['세', '개'] then some .segae
  else none

/-- Leftmost match of the quantity regex. -/
def qFind : List Char → Option QTok
  | [] => none
  | c :: rest =>
      match qMatchAt (c :: rest) with
      | some m => some m
      | none => qFind rest

/-- Quantity detection of the first `matchBasicPatterns` (lines 809-819):
a digit capture takes its numeric value; otherwise a literal match falls
back to checking the whole string for 두개/세개; no match means quantity
1. -/
def detectQuantity (normalized : String) : Nat :=
  match qFind normalized.data with
  | some (.num n) => n
  | some _ =>
      if strContains normalized "두개" then 2
      else if strContains normalized "세개" then 3
      else 1
  | none => 1

/-- Builds the result object of the first `matchBasicPatterns` for a
matched table entry. -/
def v1Result (transcript : String) (e : V1Entry) (matchedTok : String)
    (quantity : Option Nat) : IntentResult :=
  { intent := e.intent.getD "select",
    target := some (e.target.getD e.pattern),
    confidence := e.confidence,
    source := if e.cultural then "basic_pattern_cultural" else "basic_pattern",
    originalText := some transcript,
    matched := some matchedTok,
    quantity := quantity }

/-- First (shadowed) `matchBasicPatterns` definition (lines 726-843):
direct substring matching over the merged table, then token-wise matching
with quantity detection, then the fallback at confidence 0.3. -/
def matchBasicPatternsV1 (transcript : String) : IntentResult :=
  let normalized := normalizeTranscript transcript
  match allPatternsV1.find? (fun e => strContains normalized e.pattern) with
  | some e => v1Result transcript e e.pattern none
  | none =>
      let tokens := splitWs normalized
      match tokens.findSome? (fun tok =>
          allPatternsV1.findSome? (fun e =>
            if tok = e.pattern ∨ strContains tok e.pattern = true then
              some (tok, e)
            else none)) with
      | some (tok, e) =>
          let q := detectQuantity normalized
          v1Result transcript e tok (if q > 1 then some q else none)
      | none =>
          { intent := "unknown", target := some transcript, confidence := 0.3,
            source := "basic_pattern_fallback", originalText := some transcript }

/-! ## Remote classifiers and the resolution pipeline

The two remote calls are I/O.  Each call site observes either a parsed
result object or a thrown error (network failure, non-200 status, JSON
parse failure, or — for the OpenAI race — the 2-second timeout), so an
oracle value per call site captures exactly the reachable outcomes. -/

/-- Configuration flags relevant to `analyzeIntent`: `useAIIntent` and the
truthiness of the two API-key options. -/
structure Config where
  useAIIntent : Bool
  openaiApiKey : Bool
  hyperclovaApiKey : Bool

/-- Fields of the JSON object a remote model returns on a successful parse
(`{intent, confidence, target}`).  The source applies no validation to
them. -/
structure ParsedIntent where
  intent : String
  confidence : ℚ
  target : Option String := none
deriving DecidableEq

/-- Outcome of the raced OpenAI call (`Promise.race` at lines 682-687):
either the parsed JSON payload, or a thrown error / timeout. -/
inductive FastOutcome where
  | ok (p : ParsedIntent)
  | err
deriving DecidableEq

/-- Outcome of `callHyperCLOVAForContext` (lines 873-952): either some
intent-result object (parsed JSON, or the thinking-content extraction,
which always returns an object), or a thrown error. -/
inductive CtxOutcome where
  | ok (r : IntentResult)
  | err
deriving DecidableEq

/-- Oracle for the remote environment of one `analyzeIntent` run. -/
structure RemoteEnv where
  fast : FastOutcome
  ctx : CtxOutcome

/-- Result object built by `callOpenAI` (lines 1122-1128) from a parsed
payload. -/
def openaiResultOf (transcript : String) (p : ParsedIntent) : IntentResult :=
  { intent := p.intent, confidence := p.confidence, target := p.target,
    source := "openai", originalText := some transcript }

/-- Intent cache: JavaScript `Map` keyed by the normalized transcript,
modelled as an association list where the most recent binding shadows. -/
abbrev IntentCache : Type :=
  List (String × IntentResult)

/-- JavaScript `intentCache.get`/`has` (most recent binding wins). -/
def cacheGet (cache : IntentCache) (k : String) : Option IntentResult :=
  (cache.find? (fun kv => decide (kv.1 = k))).map (fun kv => kv.2)

/-- JavaScript `intentCache.set`. -/
def cacheSet (cache : IntentCache) (k : String) (v : IntentResult) : IntentCache :=
  (k, v) :: cache

/-- Outcome of one `analyzeIntent` run: the returned result, the cache
afterwards, and how many OpenAI / HyperCLOVA network calls were started. -/
structure AnalyzeOutcome where
  result : IntentResult
  cache : IntentCache
  fastCalls : Nat
  ctxCalls : Nat
deriving DecidableEq

/-- Stage 2 of `analyzeIntent` (lines 703-722): the HyperCLOVA context
attempt, guarded by its credential, accepting only confidence ≥ 0.6, then
the pattern fallback which is cached regardless of confidence.  A thrown
context error is caught by the outer catch and also falls through to the
pattern fallback. -/
def analyzeStage2 (cfg : Config) (env : RemoteEnv) (cache : IntentCache)
    (normalized transcript : String) (fastCalls : Nat) : AnalyzeOutcome :=
  if cfg.hyperclovaApiKey then
    match env.ctx with
    | .ok r =>
        if r.confidence ≥ 0.6 then
          ⟨r, cacheSet cache normalized r, fastCalls, 1⟩
        else
          let basicResult := matchBasicPatterns transcript
          ⟨basicResult, cacheSet cache normalized basicResult, fastCalls, 1⟩
    | .err =>
        let basicResult := matchBasicPatterns transcript
        ⟨basicResult, cacheSet cache normalized basicResult, fastCalls, 1⟩
  else
    let basicResult := matchBasicPatterns transcript
    ⟨basicResult, cacheSet cache normalized basicResult, fastCalls, 0⟩

/-- Embedding of `analyzeIntent` (lines 666-723): cache lookup on the
normalized transcript, then — when AI analysis is enabled and some key is
configured — the OpenAI fast stage (accepted above confidence 0.5), the
HyperCLOVA context stage (accepted at or above confidence 0.6), and the
pattern-matching fallback.  Every error of a remote stage is caught
inside, so the function is total. -/
def analyzeIntent (cfg : Config) (env : RemoteEnv) (cache : IntentCache)
    (transcript : String) : AnalyzeOutcome :=
  let normalized := normalizeTranscript transcript
  match cacheGet cache normalized with
  | some r => ⟨r, cache, 0, 0⟩
  | none =>
      if cfg.useAIIntent ∧ (cfg.hyperclovaApiKey ∨ cfg.openaiApiKey) then
        if cfg.openaiApiKey then
          match env.fast with
          | .ok p =>
              let openaiResult := openaiResultOf transcript p
              if openaiResult.confidence > 0.5 then
                ⟨openaiResult, cacheSet cache normalized openaiResult, 1, 0⟩
              else
                analyzeStage2 cfg env cache normalized transcript 1
          | .err => analyzeStage2 cfg env cache normalized transcript 1
        else
          analyzeStage2 cfg env cache normalized transcript 0
      else
        let basicResult := matchBasicPatterns transcript
        ⟨basicResult, cacheSet cache normalized basicResult, 0, 0⟩

/-! ## Self-echo suppression -/

/-- Stoplist of Korean particles/endings filtered by `extractKeywords`
(line 1606). -/
def keywordStoplist : List String :=
  ["입니다", "습니다", "해요", "이에요", "예요", "에서", "에게", "으로",
   "를", "을", "가", "이", "는", "은"]

/-- Punctuation replaced by spaces in `extractKeywords`
(`/[.,!?~]/g`). -/
def isPunct (c : Char) : Bool :=
  if c = '.' then true
  else if c = ',' then true
  else if c = '!' then true
  else if c = '?' then true
  else if c = '~' then true
  else false

/-- Collapses every maximal whitespace run to a single space
(`/\s+/g` → a space). -/
def collapseWsGo (prevWs : Bool) : List Char → List Char
  | [] => []
  | c :: rest =>
      if isWs c then
        if prevWs then collapseWsGo true rest
        else ' ' :: collapseWsGo true rest
      else c :: collapseWsGo false rest

/-- JavaScript `s.split(' ')` on a literal space. -/
def splitSpaceGo (cur : List Char) : List Char → List String
  | [] => [⟨cur.reverse⟩]
  | c :: rest =>
      if c = ' ' then ⟨cur.reverse⟩ :: splitSpaceGo [] rest
      else splitSpaceGo (c :: cur) rest

/-- Embedding of `extractKeywords` (lines 1596-1610): lowercase, replace
punctuation by spaces, collapse whitespace, trim, split on spaces, keep
words of length at least 2 that are not stoplisted, and keep at most 3. -/
def extractKeywords (text : String) : List String :=
  let cleaned : List Char :=
    collapseWsGo false ((lowerStr text).data.map (fun c => if isPunct c then ' ' else c))
  let cleanText := trimStr ⟨cleaned⟩
  let words := splitSpaceGo [] cleanText.data
  ((words.filter (fun w => w.data.length ≥ 2)).filter
    (fun w => decide (w ∉ keywordStoplist))).take 3

/-- Echo-guard state: the `aiSpeechActive`, `aiSpeechText`,
`aiSpeechKeywords` and `lastAISpeechTime` fields. -/
structure EchoGuard where
  aiSpeechActive : Bool
  aiSpeechText : String
  aiSpeechKeywords : List String
  lastAISpeechTime : Int
deriving DecidableEq

/-- Guard state of a fresh instance (constructor, lines 64-67). -/
def initialGuard : EchoGuard :=
  ⟨false, "", [], 0⟩

/-- Embedding of `markAISpeechActive` (lines 1584-1593): activates the
guard, records the lowered text and timestamp and derives the keyword
set. -/
def markAISpeechActive (text : String) (now : Int) : EchoGuard :=
  ⟨true, lowerStr text, extractKeywords text, now⟩

/-- Embedding of `markAISpeechComplete` (lines 1613-1618). -/
def markAISpeechComplete : EchoGuard :=
  ⟨false, "", [], 0⟩

/-- Embedding of `isAISpeechEcho` (lines 1621-1649): returns false when
the guard is inactive or its keyword list is empty; past 5000ms it
deactivates the guard and returns false; otherwise it counts the stored
keywords occurring in the lowered transcript and compares against
`min 2 (number of keywords)`.  Returns the boolean verdict together with
the guard state afterwards. -/
def isAISpeechEcho (g : EchoGuard) (now : Int) (transcript : String) :
    Bool × EchoGuard :=
  if g.aiSpeechActive = false ∨ g.aiSpeechKeywords = [] then
    (false, g)
  else if now - g.lastAISpeechTime > 5000 then
    (false, markAISpeechComplete)
  else
    let transcriptLower := lowerStr transcript
    let matchedKeywords :=
      g.aiSpeechKeywords.filter (fun kw => strContains transcriptLower kw)
    (matchedKeywords.length ≥ min 2 g.aiSpeechKeywords.length, g)

/-! ## Action history and undo -/

/-- One action-history entry (fields recorded by `recordAction`,
lines 345-357). -/
structure ActionEntry where
  type : String
  timestamp : Int
  previousX : Int
  previousY : Int
  url : String
deriving DecidableEq

/-- Embedding of `recordAction` (lines 345-357): push, then drop the
oldest entry when the length exceeds 10. -/
def recordAction (h : List ActionEntry) (e : ActionEntry) : List ActionEntry :=
  let pushed := h ++ [e]
  if pushed.length > 10 then pushed.tail else pushed

/-- Browser-level effect of reversing one action. -/
inductive UndoEffect where
  | scrollTo (x y : Int)
  | historyBack
deriving DecidableEq

/-- Embedding of `undoAction` (lines 232-242): scroll restores the saved
position, everything else is a browser back. -/
def undoAction (a : ActionEntry) : UndoEffect :=
  if a.type = "scroll" then .scrollTo a.previousX a.previousY
  else .historyBack

/-- Embedding of `handleCancellation` (lines 218-230): pop and reverse the
most recent entry, or — with an empty history — a browser back.  Returns
the effect, the history afterwards, and the spoken feedback. -/
def handleCancellation (h : List ActionEntry) :
    UndoEffect × List ActionEntry × String :=
  match h.getLast? with
  | some lastAction => (undoAction lastAction, h.dropLast, "이전 상태로 되돌렸습니다")
  | none => (.historyBack, h, "이전 페이지로 돌아갑니다")

/-! ## Command execution

DOM lookups are external I/O; their outcomes are oracle inputs in
`DomEnv`.  The externally visible actions of a run are collected as an
event trace. -/

/-- Externally visible events of a command run.  Purely visual feedback
(`showFeedback`, highlighting) is not traced. -/
inductive Event where
  | resolvedIntent (r : IntentResult)
  | executeAction (tag : String)
  | cancellationHandled (eff : UndoEffect)
  | domClick
  | clickedViaPattern
  | navigated
  | scrolled
  | searchFocused
  | helpShown
  | spoke (msg : String)
deriving DecidableEq

/-- Oracle for the DOM interactions of one command run: whether
`findAndClickByText` finds an element for its terms, whether
`tryElementClick`'s click-pattern regex matches and its element is found,
whether `handleGenericClick`'s fallback finds any clickable element, and
the scroll/url/time snapshot recorded into new history entries. -/
structure DomEnv where
  clickTargetFound : Bool
  patternClickFound : Bool
  anyClickableExists : Bool
  now : Int
  scrollX : Int
  scrollY : Int
  url : String

/-- History entry recorded by `recordAction` from the current browser
snapshot. -/
def newActionEntry (dom : DomEnv) (ty : String) : ActionEntry :=
  ⟨ty, dom.now, dom.scrollX, dom.scrollY, dom.url⟩

/-- Embedding of `findAndClickByText` (lines 1260-1271): on a DOM hit it
clicks and records a click action. -/
def findAndClickByText (dom : DomEnv) (h : List ActionEntry) :
    Bool × List ActionEntry × List Event :=
  if dom.clickTargetFound then
    (true, recordAction h (newActionEntry dom "click"), [.domClick])
  else (false, h, [])

/-- Embedding of `handleGenericClick` (lines 1273-1291): first
`tryElementClick` (clicks without recording; on failure it speaks the
not-found message), then the first clickable element (clicking and
recording), else a spoken failure. -/
def handleGenericClick (dom : DomEnv) (h : List ActionEntry) :
    List ActionEntry × List Event :=
  if dom.patternClickFound then (h, [.clickedViaPattern])
  else if dom.anyClickableExists then
    (recordAction h (newActionEntry dom "click"),
     [.spoke "해당 요소를 찾을 수 없습니다", .domClick, .spoke "첫 번째 버튼을 클릭했습니다"])
  else
    (h, [.spoke "해당 요소를 찾을 수 없습니다", .spoke "클릭할 요소를 찾지 못했습니다"])

/-- Embedding of `executeIntentAction` (lines 1202-1258): dispatch on the
resolved intent tag.  Returns the action history afterwards and the traced
events. -/
def executeIntentAction (dom : DomEnv) (h : List ActionEntry)
    (r : IntentResult) : List ActionEntry × List Event :=
  if r.intent = "click" then
    match r.target with
    | some t =>
        match findAndClickByText dom h with
        | (true, h', evs) => (h', evs ++ [.spoke (t ++ "을 선택했습니다")])
        | (false, h', evs) => (h', evs ++ [.spoke "해당 버튼을 찾을 수 없습니다"])
    | none => handleGenericClick dom h
  else if r.intent = "search" then
    (h, [.searchFocused, .spoke "검색을 시작합니다"])
  else if r.intent = "navigate" then (h, [.navigated])
  else if r.intent = "scroll" then (h, [.scrolled])
  else if r.intent = "input" then (h, [.spoke "텍스트 입력 모드입니다"])
  else if r.intent = "login" then
    match findAndClickByText dom h with
    | (_, h', evs) => (h', evs ++ [.spoke "로그인을 진행합니다"])
  else if r.intent = "confirm" then handleGenericClick dom h
  else if r.intent = "cancel" then
    match handleCancellation h with
    | (eff, h', msg) => (h', [.cancellationHandled eff, .spoke msg])
  else if r.intent = "help" then
    (h, [.helpShown,
         .spoke "로그인, 검색, 클릭, 다음, 이전, 위로, 아래로, 취소 명령을 사용하세요"])
  else (h, [.spoke "명령을 이해하지 못했습니다"])

/-! ## Confirmation state machine and processCommand -/

/-- Pending-confirmation slot content (`waitingForConfirmation`,
lines 1417-1420). -/
structure PendingConfirmation where
  originalCommand : String
  timestamp : Int
deriving DecidableEq

/-- Assistant state mutated by `processCommand`. -/
structure AsstState where
  waitingForConfirmation : Option PendingConfirmation
  intentCache : IntentCache
  actionHistory : List ActionEntry
deriving DecidableEq

/-- Outcome of one `processCommand` run: the returned value (the resolved
intent result, or `undefined` on the pending-cancellation branch), the
state afterwards and the traced events. -/
structure ProcOutcome where
  ret : Option IntentResult
  state : AsstState
  events : List Event
deriving DecidableEq

/-- Affirmative word list of `isConfirmationResponse` (lines 179-182);
substring matching. -/
def isConfirmationResponse (normalized : String) : Bool :=
  ["네", "예", "맞아", "맞습니다", "좋아", "확인", "그래"].any
    (fun w => strContains normalized w)

/-- Korean cancellation keyword list `CANCELLATION_KEYWORDS`
(lines 19-22). -/
def CANCELLATION_KEYWORDS : List String :=
  ["아니", "아니야", "아니에요", "취소", "취소해줘",
   "되돌려", "되돌리기", "잘못됐어", "원래대로"]

/-- Embedding of `isCancellation` (lines 194-196); substring matching. -/
def isCancellation (transcript : String) : Bool :=
  CANCELLATION_KEYWORDS.any (fun kw => strContains transcript kw)

/-- Resolution-and-execution stage of `processCommand` (lines 162-176):
everything after the pending-confirmation block.  Executes the resolved
intent exactly when its confidence exceeds 0.4, otherwise re-prompts; the
resolved result is returned either way. -/
def processCommandCore (cfg : Config) (env : RemoteEnv) (dom : DomEnv)
    (st : AsstState) (transcript : String) : ProcOutcome :=
  let a := analyzeIntent cfg env st.intentCache transcript
  let intent := a.result
  if intent.confidence > 0.4 then
    match executeIntentAction dom st.actionHistory intent with
    | (h', evs) =>
        ⟨some intent, ⟨st.waitingForConfirmation, a.cache, h'⟩,
          .resolvedIntent intent :: .executeAction intent.intent :: evs⟩
  else
    ⟨some intent, ⟨st.waitingForConfirmation, a.cache, st.actionHistory⟩,
      [.resolvedIntent intent, .spoke "명령을 다시 말씀해 주세요"]⟩

/-- Embedding of `processCommand` (lines 139-177).  A pending confirmation
is settled first: an affirmative clears the slot and re-submits the stored
command (the JavaScript recursion re-enters with the slot already cleared,
hence it equals the core stage on the stored command), a cancellation
clears the slot without resolving anything, and any other utterance clears
the slot and is processed as a new command. -/
def processCommand (cfg : Config) (env : RemoteEnv) (dom : DomEnv)
    (st : AsstState) (transcript : String) : ProcOutcome :=
  let normalized := normalizeTranscript transcript
  match st.waitingForConfirmation with
  | some pending =>
      if isConfirmationResponse normalized then
        processCommandCore cfg env dom
          { st with waitingForConfirmation := none } pending.originalCommand
      else if isCancellation normalized then
        ⟨none, { st with waitingForConfirmation := none }, [.spoke "취소했습니다"]⟩
      else
        processCommandCore cfg env dom
          { st with waitingForConfirmation := none } transcript
  | none => processCommandCore cfg env dom st transcript

/-! ## Final-result handling of recognized speech -/

/-- One-pass simultaneous literal replacement (JavaScript
`s.replace(/lit1|lit2/g, repl)`): at each position the alternatives are
tried in order, a match is consumed without rescanning the replacement.
The fuel argument (instantiated with the input length) only serves
totality; every pattern used is nonempty, so fuel never runs out. -/
def replaceScanGo (pats : List (List Char × List Char)) :
    Nat → List Char → List Char
  | _, [] => []
  | 0, l => l
  | fuel + 1, c :: rest =>
      match pats.find? (fun p => isPre p.1 (c :: rest)) with
      | some p => p.2 ++ replaceScanGo pats fuel ((c :: rest).drop p.1.length)
      | none => c :: replaceScanGo pats fuel rest

/-- One global-replace pass over a string. -/
def replaceAll (s : String) (pats : List (String × String)) : String :=
  ⟨replaceScanGo (pats.map (fun p => (p.1.data, p.2.data))) s.data.length s.data⟩

/-- Embedding of `enhanceKoreanRecognition` (lines 1389-1405): the chain
of global literal replacements, then trim. -/
def enhanceKoreanRecognition (transcript : String) : String :=
  let s1 := replaceAll transcript [("로그 인", "로그인")]
  let s2 := replaceAll s1 [("클 릭", "클릭")]
  let s3 := replaceAll s2 [("검 색", "검색")]
  let s4 := replaceAll s3 [("취 소", "취소")]
  let s5 := replaceAll s4 [("확 인", "확인")]
  let s6 := replaceAll s5 [("들어가기", "로그인")]
  let s7 := replaceAll s6 [("찾아줘", "검색")]
  let s8 := replaceAll s7 [("눌러줘", "클릭")]
  let s9 := replaceAll s8 [("해주세요", "해줘"), ("해줘요", "해줘")]
  let s10 := replaceAll s9 [("주세요", "줘")]
  trimStr s10

/-- Embedding of `isHighPriorityCommand` (lines 1407-1410). -/
def isHighPriorityCommand (transcript : String) : Bool :=
  ["취소", "아니야", "도움", "정지", "멈춰"].any
    (fun p => strContains transcript p)

/-- Combined state touched by the final-result portion of the speech
handler. -/
structure FullState where
  guard : EchoGuard
  lastCommand : String
  lastCommandTime : Int
  asst : AsstState
deriving DecidableEq

/-- Classification of what the speech handler did with a final result. -/
inductive SpeechOutcome where
  | ignoredEcho
  | ignoredDuplicate
  | ignoredEmpty
  | processed (pr : ProcOutcome)
  | confirmationRequested (originalCommand : String)
  | ignoredLowConfidence
deriving DecidableEq

/-- Embedding of the final-result portion of `handleEnhancedSpeechResult`
(lines 1348-1387).  The upstream portion (lines 1306-1346) selects the
best alternative of the newest recognition result and returns early on
non-final results; its outputs are the `bestTranscript`/`bestConfidence`
inputs here.  In order: Korean post-processing, echo filtering, the 400ms
duplicate guard, the empty-transcript guard, then dispatch on the
recognizer confidence: above 0.5 (or a high-priority keyword) the command
is processed, in (0.3, 0.5] a confirmation is requested
(`requestConfirmation`, lines 1412-1421, which stores the transcript in
the pending slot), otherwise the result is ignored.  The speak calls'
effect on the echo guard belongs to the TTS collaborator and is not
traced here. -/
def handleEnhancedSpeechResult (cfg : Config) (env : RemoteEnv) (dom : DomEnv)
    (fs : FullState) (now : Int) (bestTranscript : String)
    (bestConfidence : ℚ) : SpeechOutcome × FullState :=
  let enhancedTranscript := enhanceKoreanRecognition bestTranscript
  match isAISpeechEcho fs.guard now enhancedTranscript with
  | (isEcho, guard') =>
    if isEcho then (.ignoredEcho, { fs with guard := guard' })
    else if fs.lastCommand = enhancedTranscript ∧ now - fs.lastCommandTime < 400 then
      (.ignoredDuplicate, { fs with guard := guard' })
    else if (trimStr enhancedTranscript).data.length < 2 then
      (.ignoredEmpty, { fs with guard := guard' })
    else if bestConfidence > 0.5 ∨ isHighPriorityCommand enhancedTranscript then
      let pr := processCommand cfg env dom fs.asst enhancedTranscript
      (.processed pr,
        { guard := guard'
          lastCommand := enhancedTranscript
          lastCommandTime := now
          asst := pr.state })
    else if bestConfidence > 0.3 then
      (.confirmationRequested enhancedTranscript,
        { fs with
          guard := guard'
          asst := { fs.asst with
            waitingForConfirmation := some ⟨enhancedTranscript, now⟩ } })
    else (.ignoredLowConfidence, { fs with guard := guard' })

/-! ## Sample values used by witnesses -/

/-- Configuration with AI analysis enabled but no remote credential. -/
def cfgNoRemote : Config :=
  ⟨true, false, false⟩

/-- Configuration with both remote credentials. -/
def cfgBothKeys : Config :=
  ⟨true, true, true⟩

/-- Remote environment in which both classifier calls throw. -/
def envFailAll : RemoteEnv :=
  ⟨.err, .err⟩

/-- DOM oracle in which no element lookup succeeds. -/
def domEmpty : DomEnv :=
  ⟨false, false, false, 0, 0, 0, "about:blank"⟩

/-- Idle assistant state: no pending confirmation, empty cache and
history. -/
def idleState : AsstState :=
  ⟨none, [], []⟩

/-- Sample history entries. -/
def entryA : ActionEntry :=
  ⟨"scroll", 1, 10, 20, "pageA"⟩

/-- Second sample history entry. -/
def entryB : ActionEntry :=
  ⟨"click", 2, 0, 0, "pageB"⟩

/-- Third sample history entry. -/
def entryC : ActionEntry :=
  ⟨"navigate", 3, 0, 0, "pageC"⟩

/-! ## Cache lemmas -/

/-- A fresh cache binding is found by the next lookup. -/
theorem cacheGet_cacheSet_self (c : IntentCache) (k : String) (v : IntentResult) :
    cacheGet (cacheSet c k v) k = some v := by
  simp [cacheGet, cacheSet, List.find?]

/-- When the lookup hits, `analyzeIntent` returns the cached value with the
cache unchanged and no network calls. -/
theorem analyzeIntent_cacheHit (cfg : Config) (env : RemoteEnv)
    (cache : IntentCache) (t : String) (r : IntentResult)
    (h : cacheGet cache (normalizeTranscript t) = some r) :
    analyzeIntent cfg env cache t = ⟨r, cache, 0, 0⟩ := by
  unfold analyzeIntent
  simp [h]

/-- Every `analyzeIntent` run leaves its own result in the cache under the
normalized transcript. -/
theorem analyzeIntent_caches (cfg : Config) (env : RemoteEnv)
    (cache : IntentCache) (t : String) :
    cacheGet (analyzeIntent cfg env cache t).cache (normalizeTranscript t) =
      some (analyzeIntent cfg env cache t).result := by
  unfold analyzeIntent analyzeStage2
  cases hc : cacheGet cache (normalizeTranscript t) with
  | some r => simp [hc]
  | none =>
      cases hf : env.fast with
      | ok p =>
          cases hx : env.ctx with
          | ok q => simp [hc, hf, hx]; split_ifs <;> simp [cacheGet_cacheSet_self]
          | err => simp [hc, hf, hx]; split_ifs <;> simp [cacheGet_cacheSet_self]
      | err =>
          cases hx : env.ctx with
          | ok q => simp [hc, hf, hx]; split_ifs <;> simp [cacheGet_cacheSet_self]
          | err => simp [hc, hf, hx]; split_ifs <;> simp [cacheGet_cacheSet_self]

/-- Claim C5: resolution is idempotent under the cache — a second
`analyzeIntent` call whose transcript has the same normalization returns
the identical result of the first call and starts no network call, for any
behaviour of the remote classifiers during the second call. -/
theorem claim_C5 (cfg : Config) (env env2 : RemoteEnv) (cache : IntentCache)
    (t t2 : String)
    (hnorm : normalizeTranscript t2 = normalizeTranscript t) :
    analyzeIntent cfg env2 (analyzeIntent cfg env cache t).cache t2 =
      ⟨(analyzeIntent cfg env cache t).result,
       (analyzeIntent cfg env cache t).cache, 0, 0⟩ := by
  have h1 := analyzeIntent_caches cfg env cache t
  rw [← hnorm] at h1
  exact analyzeIntent_cacheHit cfg env2 _ t2 _ h1

/-- Witness for claim C5 at a concrete pair of transcripts differing only
by trailing whitespace, with failing remotes on the first run and any
outcome irrelevant to the second. -/
theorem claim_C5_witness :
    normalizeTranscript "취소 " = normalizeTranscript "취소" ∧
    analyzeIntent cfgNoRemote envFailAll
        (analyzeIntent cfgNoRemote envFailAll [] "취소").cache "취소 " =
      ⟨(analyzeIntent cfgNoRemote envFailAll [] "취소").result,
       (analyzeIntent cfgNoRemote envFailAll [] "취소").cache, 0, 0⟩ :=
  ⟨by decide, claim_C5 cfgNoRemote envFailAll envFailAll [] "취소" "취소 " (by decide)⟩

/-! ## Claim C7: action history and undo -/

/-- Claim C7: the action history never exceeds 10 entries and recording an
11th evicts the oldest; the undo handler pops and reverses only the most
recent entry, leaving the rest unchanged; with an empty history it falls
back to a browser-level back navigation. -/
theorem claim_C7 :
    (∀ (h : List ActionEntry) (e : ActionEntry),
      h.length ≤ 10 → (recordAction h e).length ≤ 10) ∧
    (∀ (h : List ActionEntry) (e : ActionEntry),
      h.length = 10 → recordAction h e = h.tail ++ [e]) ∧
    (∀ A B C : ActionEntry,
      handleCancellation [A, B, C] =
        (undoAction C, [A, B], "이전 상태로 되돌렸습니다")) ∧
    handleCancellation ([] : List ActionEntry) =
      (.historyBack, [], "이전 페이지로 돌아갑니다") := by
  refine ⟨?_, ?_, ?_, rfl⟩
  · intro h e he
    unfold recordAction
    dsimp only
    split_ifs with hl
    · simp at hl ⊢
      omega
    · simp at hl ⊢
      omega
  · intro h e he
    unfold recordAction
    dsimp only
    have hl : (h ++ [e]).length > 10 := by simp [he]
    rw [if_pos hl]
    cases h with
    | nil => simp at he
    | cons a t => simp
  · intro A B C
    simp [handleCancellation]

/-- Witness for claim C7: a full history of 10 entries evicts its oldest
entry on the next record, and undo on the concrete history consisting of
entries A, B, C reverses C only. -/
theorem claim_C7_witness :
    (List.replicate 10 entryA).length = 10 ∧
    recordAction (List.replicate 10 entryA) entryB =
      (List.replicate 10 entryA).tail ++ [entryB] ∧
    handleCancellation [entryA, entryB, entryC] =
      (undoAction entryC, [entryA, entryB], "이전 상태로 되돌렸습니다") := by
  refine ⟨by simp, claim_C7.2.1 _ _ (by simp), claim_C7.2.2.1 entryA entryB entryC⟩

/-! ## Claim C9: the 0.4 execution threshold of processCommand -/

/-- Detects the entry into `executeIntentAction` in a trace. -/
def isExecuteEv : Event → Bool
  | .executeAction _ => true
  | _ => false

/-- Claim C9: with no pending confirmation, `processCommand` resolves the
transcript, executes the resolved intent's action exactly when the
resolved confidence exceeds 0.4, re-prompts otherwise, and returns the
resolved intent result in both cases. -/
theorem claim_C9 (cfg : Config) (env : RemoteEnv) (dom : DomEnv)
    (st : AsstState) (t : String)
    (hidle : st.waitingForConfirmation = none) :
    (processCommand cfg env dom st t).ret =
      some (analyzeIntent cfg env st.intentCache t).result ∧
    (((processCommand cfg env dom st t).events.any isExecuteEv) = true ↔
      (analyzeIntent cfg env st.intentCache t).result.confidence > 0.4) ∧
    (¬ (analyzeIntent cfg env st.intentCache t).result.confidence > 0.4 →
      (processCommand cfg env dom st t).events =
        [.resolvedIntent (analyzeIntent cfg env st.intentCache t).result,
         .spoke "명령을 다시 말씀해 주세요"]) := by
  unfold processCommand
  rw [hidle]
  unfold processCommandCore
  dsimp only
  split_ifs with hc
  · refine ⟨rfl, ?_, fun hn => absurd hc hn⟩
    simp [isExecuteEv, hc]
  · refine ⟨rfl, ?_, fun _ => rfl⟩
    simp [isExecuteEv, hc]

/-- Witness for claim C9 on the transcript 검색 with no remote
credentials: the pattern matcher resolves it at confidence 0.9 and the
action is executed. -/
theorem claim_C9_witness :
    idleState.waitingForConfirmation = none ∧
    (processCommand cfgNoRemote envFailAll domEmpty idleState "검색").ret =
      some (analyzeIntent cfgNoRemote envFailAll idleState.intentCache "검색").result ∧
    ((processCommand cfgNoRemote envFailAll domEmpty idleState "검색").events.any
        isExecuteEv) = true :=
  ⟨rfl,
   (claim_C9 cfgNoRemote envFailAll domEmpty idleState "검색" rfl).1,
   ((claim_C9 cfgNoRemote envFailAll domEmpty idleState "검색" rfl).2.1).mpr (by
     norm_num +decide [analyzeIntent, cacheGet, normalizeTranscript, lowerStr,
       trimStr, isWs, matchBasicPatterns, enhancedPatterns, matchRule, splitWs,
       splitWsGo, strContains, isSub, isPre, List.findSome?, List.find?,
       cfgNoRemote, envFailAll, idleState])⟩

/-! ## Claim C10: affirmative detection precedes cancellation detection -/

/-- Shared transition lemma: while a confirmation is pending, an utterance
whose normalization contains an affirmative word takes the confirmation
branch — the slot is cleared and the stored command re-enters the
pipeline — regardless of any cancellation keyword it may also contain. -/
theorem processCommand_pending_affirmative (cfg : Config) (env : RemoteEnv)
    (dom : DomEnv) (st : AsstState) (t : String) (pc : PendingConfirmation)
    (hpend : st.waitingForConfirmation = some pc)
    (haff : isConfirmationResponse (normalizeTranscript t) = true) :
    processCommand cfg env dom st t =
      processCommandCore cfg env dom
        { st with waitingForConfirmation := none } pc.originalCommand := by
  unfold processCommand
  rw [hpend]
  simp [haff]

/-- Claim C10: while a confirmation is pending, the affirmative substring
check runs first, so an utterance containing an affirmative word — even
one that also contains a cancellation keyword — re-submits the stored
original command instead of cancelling. -/
theorem claim_C10 (cfg : Config) (env : RemoteEnv) (dom : DomEnv)
    (st : AsstState) (t : String) (pc : PendingConfirmation)
    (hpend : st.waitingForConfirmation = some pc)
    (haff : isConfirmationResponse (normalizeTranscript t) = true) :
    processCommand cfg env dom st t =
      processCommandCore cfg env dom
        { st with waitingForConfirmation := none } pc.originalCommand :=
  processCommand_pending_affirmative cfg env dom st t pc hpend haff

/-- Witness for claim C10 on the utterance 확인 취소, which contains both
an affirmative word and a cancellation keyword: it is treated as a
confirmation of the stored command 도움. -/
theorem claim_C10_witness :
    isConfirmationResponse (normalizeTranscript "확인 취소") = true ∧
    isCancellation (normalizeTranscript "확인 취소") = true ∧
    processCommand cfgNoRemote envFailAll domEmpty
        ⟨some ⟨"도움", 0⟩, [], []⟩ "확인 취소" =
      processCommandCore cfgNoRemote envFailAll domEmpty ⟨none, [], []⟩ "도움" :=
  ⟨by decide, by decide,
   claim_C10 cfgNoRemote envFailAll domEmpty ⟨some ⟨"도움", 0⟩, [], []⟩
     "확인 취소" ⟨"도움", 0⟩ rfl (by decide)⟩

/-! ## Claim C4: the echo verdict of isAISpeechEcho -/

/-- Literal reading of claim C4's formula: false only when the guard is
inactive or expired; otherwise the matched-keyword count is compared with
`min 2 (number of keywords)`.  Defined from the claim's words, to be
compared with the embedded `isAISpeechEcho`. -/
def isEchoClaimLiteral (g : EchoGuard) (now : Int) (transcript : String) : Bool :=
  if g.aiSpeechActive = false then false
  else if now - g.lastAISpeechTime > 5000 then false
  else
    decide ((g.aiSpeechKeywords.filter
        (fun kw => strContains (lowerStr transcript) kw)).length ≥
      min 2 g.aiSpeechKeywords.length)

/-- Amended reading of claim C4: additionally returns false when the
keyword list is empty (in which case the guard is also left untouched,
even past the 5000ms window). -/
def isEchoSpecAmended (g : EchoGuard) (now : Int) (transcript : String) : Bool :=
  if g.aiSpeechActive = false ∨ g.aiSpeechKeywords = [] then false
  else if now - g.lastAISpeechTime > 5000 then false
  else
    decide ((g.aiSpeechKeywords.filter
        (fun kw => strContains (lowerStr transcript) kw)).length ≥
      min 2 g.aiSpeechKeywords.length)

/-- Claim C4 (amended): the verdict of `isAISpeechEcho` agrees everywhere
with the claim's formula amended by the empty-keyword case, and the guard
is deactivated exactly when it was active with a nonempty keyword list and
more than 5000ms have elapsed. -/
theorem claim_C4 (g : EchoGuard) (now : Int) (t : String) :
    (isAISpeechEcho g now t).1 = isEchoSpecAmended g now t ∧
    (isAISpeechEcho g now t).2 =
      (if g.aiSpeechActive = true ∧ g.aiSpeechKeywords ≠ [] ∧
          now - g.lastAISpeechTime > 5000 then markAISpeechComplete else g) := by
  unfold isAISpeechEcho isEchoSpecAmended
  dsimp only
  split_ifs with h1 h2 h3 h4 h5 <;> simp_all

/-- Counterexample for claim C4 as stated: speaking the one-character text
아 activates the guard with an empty keyword list (no word survives the
length filter); within the window the embedded `isAISpeechEcho` rejects
any candidate, while the claim's formula — whose threshold
`min 2 0 = 0` is vacuous — classifies it as an echo. -/
theorem claim_C4_counterexample :
    markAISpeechActive "아" 0 = ⟨true, "아", [], 0⟩ ∧
    (isAISpeechEcho ⟨true, "아", [], 0⟩ 100 "네").1 = false ∧
    isEchoClaimLiteral ⟨true, "아", [], 0⟩ 100 "네" = true := by
  refine ⟨?_, by decide, by decide⟩
  simp [markAISpeechActive, extractKeywords]
  decide

/-! ## Claim C8: the 아아 주세요 scenario and the shadowed pattern table -/

/-- Claim C8 evaluation: the shadowed first `matchBasicPatterns`
definition returns exactly the result the claim demands for 아아 주세요,
but the second definition — the one method dispatch actually reaches —
knows no coffee abbreviations and yields the unknown result at confidence
0.1, which is also what the full pipeline returns without remote
credentials. -/
theorem claim_C8_behavior :
    matchBasicPatternsV1 "아아 주세요" =
      { intent := "select", target := some "아메리카노", confidence := 0.95,
        source := "basic_pattern", originalText := some "아아 주세요",
        matched := some "아아" } ∧
    matchBasicPatterns "아아 주세요" =
      { intent := "unknown", confidence := 0.1, source := "none" } ∧
    (analyzeIntent cfgNoRemote envFailAll [] "아아 주세요").result =
      { intent := "unknown", confidence := 0.1, source := "none" } := by
  refine ⟨?_, ?_, ?_⟩
  · simp +decide [matchBasicPatternsV1, allPatternsV1, v1Result,
      normalizeTranscript, lowerStr, trimStr, isWs, strContains, isSub, isPre,
      List.find?]
  · simp +decide [matchBasicPatterns, enhancedPatterns, matchRule, splitWs,
      splitWsGo, strContains, isSub, isPre, isWs, List.findSome?, List.find?]
  · simp +decide [analyzeIntent, cacheGet, cfgNoRemote, envFailAll,
      normalizeTranscript, lowerStr, trimStr, isWs, matchBasicPatterns,
      enhancedPatterns, matchRule, splitWs, splitWsGo, strContains, isSub,
      isPre, List.findSome?, List.find?]

/-! ## Soundness of the effective pattern matcher -/

/-- A successful `findSome?` comes from some list element. -/
theorem findSome?_mem {α β : Type} {f : α → Option β} {l : List α} {b : β}
    (h : l.findSome? f = some b) : ∃ a ∈ l, f a = some b := by
  induction l with
  | nil => simp [List.findSome?] at h
  | cons x xs ih =>
      rw [List.findSome?] at h
      cases hx : f x with
      | some y =>
          rw [hx] at h
          simp only [] at h
          exact ⟨x, List.mem_cons_self x xs, by rw [hx, h]⟩
      | none =>
          rw [hx] at h
          simp only [] at h
          obtain ⟨a, ha, hfa⟩ := ih h
          exact ⟨a, List.mem_cons_of_mem x ha, hfa⟩

/-- A rule match carries the rule's intent at either the declared or the
discounted confidence. -/
theorem matchRule_cases {t : String} {p : PatternRule} {r : IntentResult}
    (h : matchRule t p = some r) :
    r.intent = p.intent ∧
    (r.confidence = p.confidence ∨ r.confidence = p.confidence * 0.8) := by
  unfold matchRule at h
  cases h1 : p.keywords.find? (fun kw => decide (kw ∈ splitWs t)) with
  | some kw =>
      rw [h1] at h
      injection h with h'
      subst h'
      exact ⟨rfl, Or.inl rfl⟩
  | none =>
      rw [h1] at h
      cases h2 : p.keywords.find? (fun kw => strContains t kw) with
      | some kw =>
          rw [h2] at h
          injection h with h'
          subst h'
          exact ⟨rfl, Or.inr rfl⟩
      | none => rw [h2] at h; cases h

/-- The effective pattern matcher only produces vocabulary intents with
confidence between 0.1 and 1. -/
theorem matchBasicPatterns_sound (t : String) :
    (matchBasicPatterns t).intent ∈ intentVocabulary ∧
    0.1 ≤ (matchBasicPatterns t).confidence ∧
    (matchBasicPatterns t).confidence ≤ 1 := by
  unfold matchBasicPatterns
  cases hf : enhancedPatterns.findSome? (matchRule t) with
  | none =>
      refine ⟨by simp [intentVocabulary], by norm_num, by norm_num⟩
  | some r =>
      obtain ⟨p, hp, hpr⟩ := findSome?_mem hf
      obtain ⟨hint, hconf⟩ := matchRule_cases hpr
      simp only [enhancedPatterns, List.mem_cons, List.not_mem_nil, or_false] at hp
      rcases hp with hp | hp | hp | hp | hp | hp <;> subst hp <;>
        refine ⟨by simp [hint, intentVocabulary], ?_, ?_⟩ <;>
        rcases hconf with hcf | hcf <;> rw [hcf] <;> norm_num

/-! ## Claim C1: totality and the pattern fallback guarantee -/

/-- Claim C1 (amended): `analyzeIntent` is total and never throws (every
remote error is consumed inside the embedding); whenever the transcript is
not cached and neither remote stage can deliver a result — each call
either unconfigured or failing — the returned result is exactly the
pattern matcher's, whose intent lies in the fixed vocabulary and whose
confidence lies in [0.1, 1], the worst case being the unknown result at
0.1.  Accepted remote results, by contrast, are returned without any
validation (see the counterexample). -/
theorem claim_C1 (cfg : Config) (env : RemoteEnv) (cache : IntentCache)
    (t : String)
    (hmiss : cacheGet cache (normalizeTranscript t) = none)
    (hfast : cfg.openaiApiKey = false ∨ env.fast = FastOutcome.err)
    (hctx : cfg.hyperclovaApiKey = false ∨ env.ctx = CtxOutcome.err) :
    (analyzeIntent cfg env cache t).result = matchBasicPatterns t ∧
    (analyzeIntent cfg env cache t).result.intent ∈ intentVocabulary ∧
    0.1 ≤ (analyzeIntent cfg env cache t).result.confidence ∧
    (analyzeIntent cfg env cache t).result.confidence ≤ 1 := by
  have hpat : (analyzeIntent cfg env cache t).result = matchBasicPatterns t := by
    unfold analyzeIntent analyzeStage2
    simp only [hmiss]
    rcases hfast with hf | hf <;> rcases hctx with hx | hx <;>
      split_ifs with h1 h2 <;> simp_all
  obtain ⟨hv, hlo, hhi⟩ := matchBasicPatterns_sound t
  rw [hpat]
  exact ⟨rfl, hv, hlo, hhi⟩

/-- Counterexample for claim C1 as stated: a fast-classifier response that
parses to intent zzz at confidence 2 passes the acceptance gate
(2 > 0.5) and is returned unvalidated, so the returned confidence
exceeds 1 and the returned intent is outside the fixed vocabulary. -/
theorem claim_C1_counterexample :
    (analyzeIntent ⟨true, true, false⟩
        ⟨.ok ⟨"zzz", 2, none⟩, .err⟩ [] "음악").result =
      { intent := "zzz", confidence := 2, source := "openai",
        originalText := some "음악" } ∧
    ¬ ((analyzeIntent ⟨true, true, false⟩
        ⟨.ok ⟨"zzz", 2, none⟩, .err⟩ [] "음악").result.confidence ≤ 1) ∧
    (analyzeIntent ⟨true, true, false⟩
        ⟨.ok ⟨"zzz", 2, none⟩, .err⟩ [] "음악").result.intent ∉
      intentVocabulary := by
  have h : (analyzeIntent ⟨true, true, false⟩
      ⟨.ok ⟨"zzz", 2, none⟩, .err⟩ [] "음악").result =
      { intent := "zzz", confidence := 2, source := "openai",
        originalText := some "음악" } := by
    norm_num [analyzeIntent, cacheGet, openaiResultOf, List.find?]
  refine ⟨h, by rw [h]; norm_num, by rw [h]; decide⟩

/-- Witness for claim C1 with both remote calls configured but failing on
an uncached transcript. -/
theorem claim_C1_witness :
    cacheGet ([] : IntentCache) (normalizeTranscript "아무말") = none ∧
    (analyzeIntent cfgBothKeys envFailAll [] "아무말").result =
      matchBasicPatterns "아무말" ∧
    (analyzeIntent cfgBothKeys envFailAll [] "아무말").result.intent ∈
      intentVocabulary :=
  ⟨rfl,
   (claim_C1 cfgBothKeys envFailAll [] "아무말" rfl (Or.inr rfl) (Or.inr rfl)).1,
   (claim_C1 cfgBothKeys envFailAll [] "아무말" rfl (Or.inr rfl) (Or.inr rfl)).2.1⟩

/-! ## Claim C2: the staged threshold policy -/

/-- Claim C2 (amended): on a cache miss with AI analysis enabled, a fast
result above confidence 0.5 is accepted, cached and returned without
consulting the context classifier; the context stage is entered whenever
the fast stage does not accept — a fast success at any confidence up to
0.5 (not only above 0.3), a fast failure/timeout, or no fast credential —
and only with its credential configured; the context stage accepts and
caches exactly at confidence at least 0.6 and otherwise (including a
thrown context error, or no context credential) the pattern matcher's
result is cached and returned. -/
theorem claim_C2 (cfg : Config) (env : RemoteEnv) (cache : IntentCache)
    (t : String)
    (hmiss : cacheGet cache (normalizeTranscript t) = none)
    (hai : cfg.useAIIntent = true) :
    (∀ p : ParsedIntent, cfg.openaiApiKey = true → env.fast = .ok p →
      p.confidence > 0.5 →
      analyzeIntent cfg env cache t =
        ⟨openaiResultOf t p,
         cacheSet cache (normalizeTranscript t) (openaiResultOf t p), 1, 0⟩) ∧
    (∀ p : ParsedIntent, cfg.openaiApiKey = true → env.fast = .ok p →
      ¬ p.confidence > 0.5 →
      analyzeIntent cfg env cache t =
        analyzeStage2 cfg env cache (normalizeTranscript t) t 1) ∧
    (cfg.openaiApiKey = true → env.fast = .err →
      analyzeIntent cfg env cache t =
        analyzeStage2 cfg env cache (normalizeTranscript t) t 1) ∧
    (cfg.openaiApiKey = false → cfg.hyperclovaApiKey = true →
      analyzeIntent cfg env cache t =
        analyzeStage2 cfg env cache (normalizeTranscript t) t 0) ∧
    (∀ (n : String) (k : Nat) (q : IntentResult), cfg.hyperclovaApiKey = true →
      env.ctx = .ok q → q.confidence ≥ 0.6 →
      analyzeStage2 cfg env cache n t k = ⟨q, cacheSet cache n q, k, 1⟩) ∧
    (∀ (n : String) (k : Nat) (q : IntentResult), cfg.hyperclovaApiKey = true →
      env.ctx = .ok q → ¬ q.confidence ≥ 0.6 →
      analyzeStage2 cfg env cache n t k =
        ⟨matchBasicPatterns t, cacheSet cache n (matchBasicPatterns t), k, 1⟩) ∧
    (∀ (n : String) (k : Nat), cfg.hyperclovaApiKey = true → env.ctx = .err →
      analyzeStage2 cfg env cache n t k =
        ⟨matchBasicPatterns t, cacheSet cache n (matchBasicPatterns t), k, 1⟩) ∧
    (∀ (n : String) (k : Nat), cfg.hyperclovaApiKey = false →
      analyzeStage2 cfg env cache n t k =
        ⟨matchBasicPatterns t, cacheSet cache n (matchBasicPatterns t), k, 0⟩) := by
  refine ⟨?_, ?_, ?_, ?_, ?_, ?_, ?_, ?_⟩
  · intro p hkey hf hconf
    unfold analyzeIntent
    simp [hmiss, hai, hkey, hf, openaiResultOf, hconf]
  · intro p hkey hf hconf
    unfold analyzeIntent
    simp [hmiss, hai, hkey, hf, openaiResultOf, hconf]
  · intro hkey hf
    unfold analyzeIntent
    simp [hmiss, hai, hkey, hf]
  · intro hno hyes
    unfold analyzeIntent
    simp [hmiss, hai, hno, hyes]
  · intro n k q hkey hx hconf
    unfold analyzeStage2
    simp [hkey, hx, hconf]
  · intro n k q hkey hx hconf
    unfold analyzeStage2
    simp [hkey, hx, hconf]
  · intro n k hkey hx
    unfold analyzeStage2
    simp [hkey, hx]
  · intro n k hkey
    unfold analyzeStage2
    simp [hkey]

/-- Good context-classifier result used by the claim C2 counterexample. -/
def ctxGoodResult : IntentResult :=
  { intent := "click", confidence := 0.7, target := some "버튼",
    source := "hyperclova-context", originalText := some "테스트" }

/-- Counterexample for claim C2 as stated: the fast classifier succeeds at
confidence 0.2 — outside the claim's (0.3, 0.5] hand-over band and not a
failure — yet the context classifier is still consulted and its
confidence-0.7 result accepted and returned. -/
theorem claim_C2_counterexample :
    ¬ ((0.2 : ℚ) > 0.3) ∧
    (analyzeIntent cfgBothKeys ⟨.ok ⟨"click", 0.2, none⟩, .ok ctxGoodResult⟩
        [] "테스트").ctxCalls = 1 ∧
    (analyzeIntent cfgBothKeys ⟨.ok ⟨"click", 0.2, none⟩, .ok ctxGoodResult⟩
        [] "테스트").result = ctxGoodResult := by
  refine ⟨by norm_num, ?_, ?_⟩ <;>
    norm_num [analyzeIntent, analyzeStage2, cacheGet, cfgBothKeys,
      ctxGoodResult, openaiResultOf, List.find?]

/-- Witness for claim C2 on a concrete accepted fast result. -/
theorem claim_C2_witness :
    cacheGet ([] : IntentCache) (normalizeTranscript "테스트") = none ∧
    cfgBothKeys.useAIIntent = true ∧
    analyzeIntent cfgBothKeys ⟨.ok ⟨"click", 0.9, none⟩, .err⟩ [] "테스트" =
      ⟨openaiResultOf "테스트" ⟨"click", 0.9, none⟩,
       cacheSet [] (normalizeTranscript "테스트")
         (openaiResultOf "테스트" ⟨"click", 0.9, none⟩), 1, 0⟩ :=
  ⟨rfl, rfl,
   (claim_C2 cfgBothKeys ⟨.ok ⟨"click", 0.9, none⟩, .err⟩ [] "테스트" rfl
       rfl).1 ⟨"click", 0.9, none⟩ rfl rfl (by norm_num)⟩

/-! ## Claim C6: cancellation is not a pre-resolution short-circuit -/

/-- Claim-side trace predicate: the first resolution-or-undo event of the
trace is the undo (i.e. the cancellation was handled before any intent
resolution ran), and an undo occurs at all. -/
def undoBeforeResolution : List Event → Bool
  | [] => false
  | .resolvedIntent _ :: _ => false
  | .cancellationHandled _ :: _ => true
  | _ :: rest => undoBeforeResolution rest

/-- Trace predicate: some undo event occurs. -/
def hasCancellationHandled : List Event → Bool
  | [] => false
  | .cancellationHandled _ :: _ => true
  | _ :: rest => hasCancellationHandled rest

/-- A pattern-matcher result with the cancel intent carries confidence
0.95 (exact keyword) or 0.95 · 0.8 (substring keyword). -/
theorem matchBasicPatterns_cancel_conf (t : String)
    (h : (matchBasicPatterns t).intent = "cancel") :
    (matchBasicPatterns t).confidence = 0.95 ∨
    (matchBasicPatterns t).confidence = 0.95 * 0.8 := by
  unfold matchBasicPatterns at h ⊢
  cases hf : enhancedPatterns.findSome? (matchRule t) with
  | none => rw [hf] at h; simp at h
  | some r =>
      rw [hf] at h
      simp only [] at h ⊢
      obtain ⟨p, hp, hpr⟩ := findSome?_mem hf
      obtain ⟨hint, hconf⟩ := matchRule_cases hpr
      simp only [enhancedPatterns, List.mem_cons, List.not_mem_nil, or_false] at hp
      rcases hp with hp | hp | hp | hp | hp | hp <;> subst hp <;>
        rw [hint] at h <;> first
        | (exact absurd h (by decide))
        | (rcases hconf with hcf | hcf <;> rw [hcf] <;> norm_num)

/-- With no remote credential configured, an uncached transcript resolves
to the pattern matcher's result (whatever the `useAIIntent` flag). -/
theorem analyzeIntent_noRemote (cfg : Config) (env : RemoteEnv)
    (cache : IntentCache) (t : String)
    (hmiss : cacheGet cache (normalizeTranscript t) = none)
    (hk1 : cfg.openaiApiKey = false) (hk2 : cfg.hyperclovaApiKey = false) :
    analyzeIntent cfg env cache t =
      ⟨matchBasicPatterns t,
       cacheSet cache (normalizeTranscript t) (matchBasicPatterns t), 0, 0⟩ := by
  unfold analyzeIntent
  simp [hmiss, hk1, hk2]

/-- Executing a cancel intent runs the undo handler. -/
theorem executeIntentAction_cancel (dom : DomEnv) (h : List ActionEntry)
    (r : IntentResult) (hint : r.intent = "cancel") :
    executeIntentAction dom h r =
      ((handleCancellation h).2.1,
       [.cancellationHandled (handleCancellation h).1,
        .spoke (handleCancellation h).2.2]) := by
  unfold executeIntentAction
  rcases hhc : handleCancellation h with ⟨eff, h2, msg⟩
  simp +decide [hint, hhc]

/-- Claim C6 (amended): a cancellation utterance arriving with no pending
confirmation is not short-circuited — it passes through intent resolution
first (here under no remote credentials: the pattern matcher, whose cancel
rule fires above the execution threshold), and the undo operation is then
triggered by executing the resolved cancel intent, strictly after the
resolution event. -/
theorem claim_C6 (cfg : Config) (env : RemoteEnv) (dom : DomEnv)
    (st : AsstState) (t : String)
    (hidle : st.waitingForConfirmation = none)
    (hmiss : cacheGet st.intentCache (normalizeTranscript t) = none)
    (hk1 : cfg.openaiApiKey = false) (hk2 : cfg.hyperclovaApiKey = false)
    (hcancel : (matchBasicPatterns t).intent = "cancel") :
    (processCommand cfg env dom st t).events =
      [.resolvedIntent (matchBasicPatterns t), .executeAction "cancel",
       .cancellationHandled (handleCancellation st.actionHistory).1,
       .spoke (handleCancellation st.actionHistory).2.2] ∧
    undoBeforeResolution (processCommand cfg env dom st t).events = false ∧
    hasCancellationHandled (processCommand cfg env dom st t).events = true := by
  have hconf : (matchBasicPatterns t).confidence > 0.4 := by
    rcases matchBasicPatterns_cancel_conf t hcancel with hcf | hcf <;>
      rw [hcf] <;> norm_num
  have hrun : (processCommand cfg env dom st t).events =
      [.resolvedIntent (matchBasicPatterns t), .executeAction "cancel",
       .cancellationHandled (handleCancellation st.actionHistory).1,
       .spoke (handleCancellation st.actionHistory).2.2] := by
    unfold processCommand
    rw [hidle]
    unfold processCommandCore
    rw [analyzeIntent_noRemote cfg env st.intentCache t hmiss hk1 hk2]
    dsimp only
    rw [if_pos hconf,
      executeIntentAction_cancel dom st.actionHistory _ hcancel, hcancel]
  refine ⟨hrun, ?_, ?_⟩ <;> rw [hrun] <;> rfl

/-- Counterexample for claim C6 as stated: for the cancellation utterance
취소 in the idle state, the trace shows the resolution event strictly
before the undo event — no pre-resolution short-circuit exists in
`processCommand`. -/
theorem claim_C6_counterexample :
    isCancellation "취소" = true ∧
    undoBeforeResolution
      (processCommand cfgNoRemote envFailAll domEmpty idleState "취소").events =
      false ∧
    hasCancellationHandled
      (processCommand cfgNoRemote envFailAll domEmpty idleState "취소").events =
      true := by
  refine ⟨by decide, ?_, ?_⟩ <;>
    norm_num +decide [processCommand, processCommandCore, analyzeIntent,
      cacheGet, cfgNoRemote, envFailAll, domEmpty, idleState,
      normalizeTranscript, lowerStr, trimStr, isWs, matchBasicPatterns,
      enhancedPatterns, matchRule, splitWs, splitWsGo, strContains, isSub,
      isPre, List.findSome?, List.find?, executeIntentAction,
      handleCancellation, undoAction, undoBeforeResolution,
      hasCancellationHandled]

/-- Witness for claim C6 at the concrete utterance 되돌려 with one
recorded scroll action. -/
theorem claim_C6_witness :
    (matchBasicPatterns "되돌려").intent = "cancel" ∧
    (processCommand cfgNoRemote envFailAll domEmpty
        ⟨none, [], [entryA]⟩ "되돌려").events =
      [.resolvedIntent (matchBasicPatterns "되돌려"), .executeAction "cancel",
       .cancellationHandled (handleCancellation [entryA]).1,
       .spoke (handleCancellation [entryA]).2.2] := by
  have hc : (matchBasicPatterns "되돌려").intent = "cancel" := by decide
  exact ⟨hc,
    (claim_C6 cfgNoRemote envFailAll domEmpty ⟨none, [], [entryA]⟩ "되돌려"
      rfl rfl rfl rfl hc).1⟩

/-! ## Claim C3: the confirmation state machine -/

/-- Claim C3 (amended): the pending slot is a single `Option` field, so at
most one confirmation is ever pending, and the resolution stage never
creates one; it is set by the speech handler exactly for utterances whose
recognizer confidence lies in (0.3, 0.5] and which carry no high-priority
keyword (after passing the echo, duplicate and length filters) — not for
the whole 0.3–0.6 band the claim states; from the pending state an
affirmative utterance clears the slot and re-submits the stored command
through the full pipeline, a cancellation clears it with no re-resolution,
and any other utterance clears it and is processed as a brand-new
command. -/
theorem claim_C3 (cfg : Config) (env : RemoteEnv) (dom : DomEnv) :
    (∀ (fs : FullState) (now : Int) (t : String) (conf : ℚ),
      (isAISpeechEcho fs.guard now (enhanceKoreanRecognition t)).1 = false →
      ¬ (fs.lastCommand = enhanceKoreanRecognition t ∧
          now - fs.lastCommandTime < 400) →
      ¬ ((trimStr (enhanceKoreanRecognition t)).data.length < 2) →
      ¬ (conf > 0.5 ∨ isHighPriorityCommand (enhanceKoreanRecognition t) = true) →
      conf > 0.3 →
      handleEnhancedSpeechResult cfg env dom fs now t conf =
        (.confirmationRequested (enhanceKoreanRecognition t),
         { fs with
           guard := (isAISpeechEcho fs.guard now (enhanceKoreanRecognition t)).2
           asst := { fs.asst with
             waitingForConfirmation := some ⟨enhanceKoreanRecognition t, now⟩ } })) ∧
    (∀ (st : AsstState) (t : String) (pc : PendingConfirmation),
      st.waitingForConfirmation = some pc →
      isConfirmationResponse (normalizeTranscript t) = true →
      processCommand cfg env dom st t =
        processCommandCore cfg env dom
          { st with waitingForConfirmation := none } pc.originalCommand) ∧
    (∀ (st : AsstState) (t : String) (pc : PendingConfirmation),
      st.waitingForConfirmation = some pc →
      isConfirmationResponse (normalizeTranscript t) = false →
      isCancellation (normalizeTranscript t) = true →
      processCommand cfg env dom st t =
        ⟨none, { st with waitingForConfirmation := none },
         [.spoke "취소했습니다"]⟩) ∧
    (∀ (st : AsstState) (t : String) (pc : PendingConfirmation),
      st.waitingForConfirmation = some pc →
      isConfirmationResponse (normalizeTranscript t) = false →
      isCancellation (normalizeTranscript t) = false →
      processCommand cfg env dom st t =
        processCommandCore cfg env dom
          { st with waitingForConfirmation := none } t) ∧
    (∀ (st : AsstState) (t : String),
      (processCommandCore cfg env dom st t).state.waitingForConfirmation =
        st.waitingForConfirmation) := by
  refine ⟨?_, ?_, ?_, ?_, ?_⟩
  · intro fs now t conf hech hdup hlen hhi hband
    unfold handleEnhancedSpeechResult
    dsimp only
    simp only [hech]
    rw [if_neg (by simp), if_neg hdup, if_neg hlen, if_neg hhi, if_pos hband]
  · intro st t pc hpend haff
    exact processCommand_pending_affirmative cfg env dom st t pc hpend haff
  · intro st t pc hpend haff hcan
    unfold processCommand
    rw [hpend]
    simp [haff, hcan]
  · intro st t pc hpend haff hcan
    unfold processCommand
    rw [hpend]
    simp [haff, hcan]
  · intro st t
    unfold processCommandCore
    dsimp only
    split_ifs <;> rfl

/-- Counterexample for claim C3 as stated: the utterance 노래 틀어 at
recognizer confidence 0.55 — inside the claim's 0.3–0.6 band — is
processed as a command (it resolves to the unknown result and is merely
re-prompted) and no pending confirmation is created. -/
theorem claim_C3_counterexample :
    (0.3 : ℚ) < 0.55 ∧ (0.55 : ℚ) < 0.6 ∧
    (handleEnhancedSpeechResult cfgNoRemote envFailAll domEmpty
        ⟨initialGuard, "", 0, idleState⟩ 1000 "노래 틀어"
        0.55).2.asst.waitingForConfirmation = none := by
  refine ⟨by norm_num, by norm_num, ?_⟩
  norm_num +decide [handleEnhancedSpeechResult, enhanceKoreanRecognition,
    replaceAll, replaceScanGo, isAISpeechEcho, initialGuard, idleState,
    cfgNoRemote, envFailAll, domEmpty, isHighPriorityCommand, strContains,
    isSub, isPre, trimStr, isWs, processCommand, processCommandCore,
    analyzeIntent, cacheGet, normalizeTranscript, lowerStr,
    matchBasicPatterns, enhancedPatterns, matchRule, splitWs, splitWsGo,
    List.findSome?, List.find?, cacheSet]

/-- Witness for claim C3: the same utterance at recognizer confidence
0.45 — inside (0.3, 0.5] — does create the pending confirmation storing
it, and a pending 도움 command is re-submitted by the affirmative
utterance 네. -/
theorem claim_C3_witness :
    (0.3 : ℚ) < 0.45 ∧ ¬ ((0.45 : ℚ) > 0.5) ∧
    handleEnhancedSpeechResult cfgNoRemote envFailAll domEmpty
        ⟨initialGuard, "", 0, idleState⟩ 1000 "노래 틀어" 0.45 =
      (.confirmationRequested (enhanceKoreanRecognition "노래 틀어"),
       ⟨(isAISpeechEcho initialGuard 1000
           (enhanceKoreanRecognition "노래 틀어")).2, "", 0,
        ⟨some ⟨enhanceKoreanRecognition "노래 틀어", 1000⟩, [], []⟩⟩) ∧
    processCommand cfgNoRemote envFailAll domEmpty
        ⟨some ⟨"도움", 0⟩, [], []⟩ "네" =
      processCommandCore cfgNoRemote envFailAll domEmpty ⟨none, [], []⟩ "도움" := by
  refine ⟨by norm_num, by norm_num, ?_, ?_⟩
  · exact (claim_C3 cfgNoRemote envFailAll domEmpty).1
      ⟨initialGuard, "", 0, idleState⟩ 1000 "노래 틀어" 0.45
      (by decide)
      (by decide)
      (by decide)
      (by rintro (hq | hq)
          · exact absurd hq (by norm_num)
          · exact absurd hq (by decide))
      (by norm_num)
  · exact (claim_C3 cfgNoRemote envFailAll domEmpty).2.1
      ⟨some ⟨"도움", 0⟩, [], []⟩ "네" ⟨"도움", 0⟩ rfl (by decide)

end VoiceAssistant
